import Mathlib

/-!
Verification of the ideeza analytics engine against its specification.

The development shallowly embeds the analytics code:
* `analytics/models.py` — `BlogView`, `Blog`, `DailyAnalyticsSummary` records,
* `analytics/api/serializers.py` — `AnalyticsFilterSerializer.validate`,
* `analytics/services.py` — the live and pre-calculated query paths,
* `analytics/management/commands/precalculate_stats.py` — the batch job.

Conventions of the embedding:
* A Python `datetime` is a `DateTime` (absolute day number plus seconds within
  the day, compared lexicographically); a `date` is the day number alone, so
  `datetime.date()` is the `.day` projection.  `timestamp__year` / `date__year`
  are both the same calendar function `yearOfDay` of the day number.
* Database tables are lists of records; Django querysets become `List.filter`
  with executable `Bool` predicates; `values().annotate()` grouping becomes
  grouping over the `dedup` of the key images (first-occurrence order);
  `order_by` becomes `List.insertionSort` (SQL guarantees a sorted permutation
  and nothing about ties, as does `insertionSort`).
* `COUNT(id)` is `List.length`, `COUNT(DISTINCT fk)` is `dedup.length` of the
  mapped non-null keys, `SUM` is `List.sum`.
* Python truthiness tests on optional fields (`if x := filters.get(...)`)
  are the `truthy*` helpers: `None`, `0`, `""` and `[]` are falsy.
* Foreign keys are ids; the `Country.code`, `User.username`, `Blog.title`
  columns are read through functions carried by the `DB` environment.
* Floating point growth arithmetic is modelled with rationals; Python's
  `round(x, 2)` is modelled by half-up rounding to two decimals (it agrees
  with Python everywhere except exact representational ties).
-/

/-- A Python `datetime`: absolute day number and seconds inside the day. -/
structure DateTime where
  day : Nat
  sec : Nat
deriving DecidableEq, Repr

/-- Lexicographic `<=` on datetimes, as comparison of instants. -/
def dtLe (a b : DateTime) : Bool :=
  decide (a.day < b.day) || (decide (a.day = b.day) && decide (a.sec ≤ b.sec))

/-- Calendar year of an absolute day number (fixed 365-day-year convention;
both `timestamp__year` and `date__year` go through this same function, which
is all the development depends on). -/
def yearOfDay (d : Nat) : Nat := d / 365

/-- `datetime - timedelta(days=n)` at the granularity the model carries. -/
def subDays (dt : DateTime) (n : Nat) : DateTime := { day := dt.day - n, sec := dt.sec }

/-- Python truthiness of an optional integer field: `None` and `0` are falsy. -/
def truthyNat : Option Nat → Option Nat
  | some n => if n = 0 then none else some n
  | none => none

/-- Python truthiness of an optional string field: `None` and `""` are falsy. -/
def truthyStr : Option String → Option String
  | some s => if s = "" then none else some s
  | none => none

/-- Python truthiness of an optional list field: `None` and `[]` are falsy. -/
def truthyList : Option (List String) → Option (List String)
  | some [] => none
  | some (c :: cs) => some (c :: cs)
  | none => none

/-- One `BlogView` row (`analytics/models.py`): the blog FK is denormalised to
the blog id and its author id, the nullable country FK is the country id. -/
structure Event where
  id : Nat
  blogId : Nat
  authorId : Nat
  countryId : Option Nat
  timestamp : DateTime
deriving DecidableEq, Repr

/-- One `DailyAnalyticsSummary` row (`analytics/models.py`). -/
structure Summary where
  date : Nat
  countryId : Option Nat
  authorId : Option Nat
  total_views : Nat
  unique_blogs : Nat
  blog_ids : List Nat
deriving DecidableEq, Repr

/-- One `Blog` row, as needed by the `created` performance metric. -/
structure BlogRec where
  id : Nat
  authorId : Nat
  createdAt : DateTime
deriving DecidableEq, Repr

/-- The queryable state: the three tables plus the lookup columns of the
reference tables (`Country.code`, `User.username`, `Blog.title`). -/
structure DB where
  events : List Event
  summaries : List Summary
  blogs : List BlogRec
  countryCode : Nat → String
  username : Nat → String
  blogTitle : Nat → String

/-- The parsed filter dictionary shared by every endpoint
(`AnalyticsFilterSerializer` output). -/
structure Filters where
  year : Option Nat
  start_date : Option DateTime
  end_date : Option DateTime
  country_codes : Option (List String)
  exclude_country_codes : Option (List String)
  author_username : Option String
  blog_id : Option Nat
  compare : Option String
deriving DecidableEq, Repr

/-- Filters with every field absent. -/
def Filters.empty : Filters :=
  { year := none, start_date := none, end_date := none, country_codes := none
  , exclude_country_codes := none, author_username := none, blog_id := none
  , compare := none }

/- ### Serializer (`analytics/api/serializers.py`) -/

/-- The raw, already field-validated serializer input; `range` is a
`ChoiceField` value when present. -/
structure FilterInput where
  range : Option String
  start_date : Option DateTime
  end_date : Option DateTime
  year : Option Nat
  country_codes : Option (List String)
  exclude_country_codes : Option (List String)
  author_username : Option String
  blog_id : Option Nat
  compare : Option String
deriving DecidableEq, Repr

def RANGE_CHOICES : List String := ["day", "week", "month", "year"]

/-- `RANGE_DAYS.get(r)`. -/
def RANGE_DAYS (r : String) : Option Nat :=
  if r = "day" then some 1
  else if r = "week" then some 7
  else if r = "month" then some 30
  else if r = "year" then some 365
  else none

/-- `AnalyticsFilterSerializer.validate` (serializers.py lines 77-115):
reject present-but-empty inclusion/exclusion lists, then expand a truthy
`range` shortcut into absolute `[now - days, now]`, overriding any explicit
`start_date`/`end_date`. -/
def validateFilter (now : DateTime) (d : FilterInput) : Except String FilterInput :=
  if d.country_codes = some [] then
    Except.error "country_codes: Cannot be an empty list."
  else if d.exclude_country_codes = some [] then
    Except.error "exclude_country_codes: Cannot be an empty list."
  else
    match truthyStr d.range with
    | some r =>
      match RANGE_DAYS r with
      | none => Except.error "range: Invalid range."
      | some n =>
        Except.ok { d with start_date := some (subDays now n), end_date := some now }
    | none => Except.ok d

/- ### Filter builders (`services.py` lines 44-81 and 346-386) -/

/-- `Q(timestamp__year=year)` / `Q(date__year=year)` clause. -/
def yearQ (y : Nat) (day : Nat) : Bool := decide (yearOfDay day = y)

/-- `timestamp__gte=start_date` / `timestamp__lte=end_date` clauses
(instant-level comparison used by `_build_blogview_filters`). -/
def rangeQts (f : Filters) (ts : DateTime) : Bool :=
  (match f.start_date with | some sd => dtLe sd ts | none => true)
  && (match f.end_date with | some ed => dtLe ts ed | none => true)

/-- `date__gte=start_date.date()` / `date__lte=end_date.date()` clauses
(day-level comparison used by `_build_summary_filters`). -/
def rangeQdate (f : Filters) (d : Nat) : Bool :=
  (match f.start_date with | some sd => decide (sd.day ≤ d) | none => true)
  && (match f.end_date with | some ed => decide (d ≤ ed.day) | none => true)

/-- Time clause of `_build_blogview_filters`: year when truthy, else range. -/
def timeQts (f : Filters) (ts : DateTime) : Bool :=
  match truthyNat f.year with
  | some y => yearQ y ts.day
  | none => rangeQts f ts

/-- Time clause of `_build_summary_filters`: year when truthy, else range. -/
def timeQdate (f : Filters) (d : Nat) : Bool :=
  match truthyNat f.year with
  | some y => yearQ y d
  | none => rangeQdate f d

/-- Country clauses `Q(country__code__in=..)` and `~Q(country__code__in=..)`,
shared verbatim by both builders; a null country never matches the inclusion
list and always survives the negated exclusion clause. -/
def countryQ (db : DB) (f : Filters) (cid : Option Nat) : Bool :=
  (match truthyList f.country_codes with
   | some cs => match cid with
     | some c => decide (db.countryCode c ∈ cs)
     | none => false
   | none => true)
  && (match truthyList f.exclude_country_codes with
      | some cs => match cid with
        | some c => !decide (db.countryCode c ∈ cs)
        | none => true
      | none => true)

/-- `Q(blog__author__username=author)` on an event row (author is non-null). -/
def authorQev (db : DB) (f : Filters) (aid : Nat) : Bool :=
  match truthyStr f.author_username with
  | some a => decide (db.username aid = a)
  | none => true

/-- `Q(author__username=author)` on a summary row (author is nullable). -/
def authorQsum (db : DB) (f : Filters) (aid : Option Nat) : Bool :=
  match truthyStr f.author_username with
  | some a => match aid with
    | some i => decide (db.username i = a)
    | none => false
  | none => true

/-- `Q(blog_id=blog_id)` clause. -/
def blogQ (f : Filters) (bid : Nat) : Bool :=
  match truthyNat f.blog_id with
  | some b => decide (bid = b)
  | none => true

/-- `AnalyticsService._build_blogview_filters` (services.py 44-81):
the conjunction of the time, country, author and blog clauses on a
`BlogView` row. -/
def buildBlogviewFilters (db : DB) (f : Filters) (e : Event) : Bool :=
  timeQts f e.timestamp && countryQ db f e.countryId
    && authorQev db f e.authorId && blogQ f e.blogId

/-- `AnalyticsService._build_summary_filters` (services.py 346-386):
same clauses against the summary table; note there is no blog clause. -/
def buildSummaryFilters (db : DB) (f : Filters) (s : Summary) : Bool :=
  timeQdate f s.date && countryQ db f s.countryId && authorQsum db f s.authorId

/- ### Growth calculation (`services.py` lines 314-344) -/

/-- One element of `raw_data` fed to `_calculate_growth_periods`. -/
structure PerfRaw where
  period : Nat
  views : Nat
  blogs : Nat
deriving DecidableEq, Repr

/-- One `{x, y, z}` record of the performance endpoint. -/
structure PerfEntry where
  x : String
  y : Nat
  z : Rat
deriving DecidableEq, Repr

/-- Python `round(q, 2)` modelled as half-up rounding to two decimals. -/
def roundTo2 (q : Rat) : Rat := ((Int.floor (q * 100 + 1/2) : Int) : Rat) / 100

/-- `strftime('%Y-%m-%d')` stand-in: any injective rendering of the bucket. -/
def dateStr (p : Nat) : String := toString p

/-- The loop body of `_calculate_growth_periods`, carrying `prev_views`. -/
def growthGo (prev : Nat) : List PerfRaw → List PerfEntry
  | [] => []
  | e :: rest =>
    { x := dateStr e.period ++ " (" ++ toString e.blogs ++ " blogs)"
    , y := e.views
    , z := roundTo2 (if 0 < prev then (((e.views : Rat) - (prev : Rat)) / (prev : Rat)) * 100 else 0)
    } :: growthGo e.views rest

/-- `AnalyticsService._calculate_growth_periods` (services.py 314-344):
growth is `((views - prev) / prev) * 100` rounded to two decimals when
`prev > 0`, and `0.0` otherwise, with `prev_views` starting at `0`. -/
def calculateGrowthPeriods (raw : List PerfRaw) : List PerfEntry :=
  growthGo 0 raw

/- ### The specification's growth formula, for claim C3 -/

/-- Modelled from the spec wording of C3: growth is exactly
`((current - previous) / previous) * 100` (no rounding) when the previous
count is positive, `0` when it is zero, `0` for the first period. -/
def specGrowthZ (prev : Nat) : List Nat → List Rat
  | [] => []
  | v :: vs =>
    (if 0 < prev then (((v : Rat) - (prev : Rat)) / (prev : Rat)) * 100 else 0)
      :: specGrowthZ v vs

/- ### Live query paths (`services.py` lines 98-312) -/

/-- One `{x, y, z}` record of the grouped and top endpoints. -/
structure GroupEntry where
  x : Option String
  y : Nat
  z : Nat
deriving DecidableEq, Repr

/-- `object_type` of the grouped endpoints. -/
inductive ObjectType
  | country
  | user
deriving DecidableEq, Repr

/-- `top_type` of the top endpoint. -/
inductive TopType
  | blog
  | user
  | country
deriving DecidableEq, Repr

/-- Grouping value `F(group_field)` of a `BlogView` row for the grouped
endpoint: `country__code` (nullable via the left join) or
`blog__author__username`. -/
def liveGroupKey (db : DB) (ot : ObjectType) (e : Event) : Option String :=
  match ot with
  | ObjectType.country => e.countryId.map db.countryCode
  | ObjectType.user => some (db.username e.authorId)

/-- Descending-`z` comparison used by `order_by('-z')`. -/
def zDesc (a b : GroupEntry) : Prop := b.z ≤ a.z

instance : DecidableRel zDesc := fun a b => Nat.decLe b.z a.z

instance : IsTotal GroupEntry zDesc := ⟨fun a b => Nat.le_total b.z a.z⟩

instance : IsTrans GroupEntry zDesc := ⟨fun _ _ _ h h' => Nat.le_trans h' h⟩

/-- Descending-`y` comparison used by `order_by('-y')`. -/
def yDesc (a b : GroupEntry) : Prop := b.y ≤ a.y

instance : DecidableRel yDesc := fun a b => Nat.decLe b.y a.y

instance : IsTotal GroupEntry yDesc := ⟨fun a b => Nat.le_total b.y a.y⟩

instance : IsTrans GroupEntry yDesc := ⟨fun _ _ _ h h' => Nat.le_trans h' h⟩

/-- `AnalyticsService.get_grouped_analytics` (services.py 98-130), after the
cache read: filter `BlogView` with `_build_blogview_filters`, group by the
dimension, annotate `y = COUNT(DISTINCT blog)`, `z = COUNT(id)`, order by
descending `z`. -/
def getGroupedAnalytics (db : DB) (ot : ObjectType) (f : Filters) : List GroupEntry :=
  let filtered := db.events.filter (fun e => buildBlogviewFilters db f e)
  let keys := (filtered.map (liveGroupKey db ot)).dedup
  let entries := keys.map (fun g =>
    let grp := filtered.filter (fun e => decide (liveGroupKey db ot e = g))
    { x := g
    , y := (grp.map (fun e => e.blogId)).dedup.length
    , z := grp.length })
  List.insertionSort zDesc entries

/-- Grouping value of a `BlogView` row for the top endpoint
(`blog__title`, `blog__author__username` or `country__code`). -/
def topGroupKey (db : DB) (tt : TopType) (e : Event) : Option String :=
  match tt with
  | TopType.blog => some (db.blogTitle e.blogId)
  | TopType.user => some (db.username e.authorId)
  | TopType.country => e.countryId.map db.countryCode

/-- The per-type `z` metric of the top endpoint:
`COUNT(DISTINCT country)` for blogs (SQL ignores nulls),
`COUNT(DISTINCT blog)` for users and countries. -/
def topZMetric (tt : TopType) (grp : List Event) : Nat :=
  match tt with
  | TopType.blog => ((grp.filterMap (fun e => e.countryId)).dedup).length
  | TopType.user => ((grp.map (fun e => e.blogId)).dedup).length
  | TopType.country => ((grp.map (fun e => e.blogId)).dedup).length

/-- `AnalyticsService.get_top_analytics` (services.py 132-169), after the
cache read: filter, group by the configured field, annotate
`y = COUNT(id)` and the per-type `z`, order by descending `y`, truncate
to ten entries. -/
def getTopAnalytics (db : DB) (tt : TopType) (f : Filters) : List GroupEntry :=
  let filtered := db.events.filter (fun e => buildBlogviewFilters db f e)
  let keys := (filtered.map (topGroupKey db tt)).dedup
  let entries := keys.map (fun g =>
    let grp := filtered.filter (fun e => decide (topGroupKey db tt e = g))
    { x := g
    , y := grp.length
    , z := topZMetric tt grp })
  (List.insertionSort yDesc entries).take 10

/-- `TruncDay`/`TruncWeek`/`TruncMonth`/`TruncYear` of an absolute day
(fixed-width bucket convention matching `yearOfDay`). -/
def granTrunc (gran : String) (d : Nat) : Nat :=
  if gran = "year" then d - d % 365
  else if gran = "month" then d - d % 30
  else if gran = "week" then d - d % 7
  else d

/-- Granularity selection of `get_performance_analytics` (services.py
211-239): a truthy `compare` filter forces the granularity, otherwise the
span of the filtered events picks month / week / day. -/
def perfGranularity (f : Filters) (days : Nat) : String :=
  match truthyStr f.compare with
  | some c => if c = "year" then "year" else if c = "month" then "month"
              else if c = "week" then "week" else "day"
  | none => if 365 < days then "month" else if 30 < days then "week" else "day"

/-- Seconds since epoch of a datetime, used for the span computation. -/
def dtAbs (ts : DateTime) : Nat := ts.day * 86400 + ts.sec

/-- `(max - min).days` over the filtered events (services.py 200-215, with
the `days <= 0` clamp to `1`). -/
def perfSpanDays (qs : List Event) : Nat :=
  let lo := (qs.map (fun e => dtAbs e.timestamp)).foldr Nat.min ((qs.map (fun e => dtAbs e.timestamp)).headD 0)
  let hi := (qs.map (fun e => dtAbs e.timestamp)).foldr Nat.max 0
  let days := (hi - lo) / 86400
  if days = 0 then 1 else days

/-- The body of `get_performance_analytics` after the emptiness guard
(services.py 199-312): bucket views and the blogs metric by the selected
granularity, merge the two period sets, and hand the ordered raw rows to
`_calculate_growth_periods`.  `metric` is
`settings.IDEEZA_PERFORMANCE_X_METRIC`. -/
def perfCompute (db : DB) (f : Filters) (metric : String) (queryset : List Event) : List PerfEntry :=
  let gran := perfGranularity f (perfSpanDays queryset)
  let trunc := granTrunc gran
  let viewPeriods := (queryset.map (fun e => trunc e.timestamp.day)).dedup
  let bqs : List BlogRec := match truthyStr f.author_username with
    | some a => db.blogs.filter (fun b => decide (db.username b.authorId = a))
    | none => db.blogs
  let blogPeriods :=
    if metric = "created" then (bqs.map (fun b => trunc b.createdAt.day)).dedup
    else viewPeriods
  let allPeriods := List.insertionSort (· ≤ ·) (viewPeriods ++ blogPeriods).dedup
  let raw := allPeriods.map (fun p =>
    { period := p
    , views := (queryset.filter (fun e => decide (trunc e.timestamp.day = p))).length
    , blogs :=
        if metric = "created" then
          (bqs.filter (fun b => decide (trunc b.createdAt.day = p))).length
        else
          ((queryset.filter (fun e => decide (trunc e.timestamp.day = p))).map
            (fun e => e.blogId)).dedup.length })
  calculateGrowthPeriods raw

/- ### Pre-calculation job (`precalculate_stats.py` lines 110-193) -/

/-- `TruncDate(timestamp)`. -/
def eventDate (e : Event) : Nat := e.timestamp.day

/-- The grouping key `(view_date, country, blog__author)` of the job. -/
def eventKey (e : Event) : Nat × Option Nat × Nat :=
  (eventDate e, e.countryId, e.authorId)

/-- The summary row the job computes for one key `k` over the events
filtered to the target range: `total_views = COUNT(id)`,
`unique_blogs = COUNT(DISTINCT blog)`, and `blog_ids` from the separate
`values(view_date, country, blog__author, blog).distinct()` query grouped
into per-key sets (precalculate_stats.py 110-134, 146-166). -/
def mkSummary (filtered : List Event) (k : Nat × Option Nat × Nat) : Summary :=
  { date := k.1
  , countryId := k.2.1
  , authorId := some k.2.2
  , total_views := (filtered.filter (fun e => decide (eventKey e = k))).length
  , unique_blogs :=
      ((filtered.filter (fun e => decide (eventKey e = k))).map (fun e => e.blogId)).dedup.length
  , blog_ids :=
      (((filtered.map (fun e => (eventKey e, e.blogId))).dedup).filter
        (fun p => decide (p.1 = k))).map (fun p => p.2) }

/-- The rows one `precalculate_stats` run computes for the range
`timestamp__date >= startDay`: one summary per distinct
`(view_date, country, blog__author)` key. -/
def precalcCompute (startDay : Nat) (events : List Event) : List Summary :=
  let filtered := events.filter (fun e => decide (startDay ≤ eventDate e))
  ((filtered.map eventKey).dedup).map (mkSummary filtered)

/-- The unique-together key `(date, country, author)` of a summary row. -/
def summaryKey (s : Summary) : Nat × Option Nat × Option Nat :=
  (s.date, s.countryId, s.authorId)

/-- In-place overwrite of the three computed columns, as
`bulk_update(..., ['total_views', 'unique_blogs', 'blog_ids'])` does. -/
def overwriteFrom (c s : Summary) : Summary :=
  { s with
    total_views := c.total_views
    unique_blogs := c.unique_blogs
    blog_ids := c.blog_ids }

/-- The fate of one existing table row under the run's `bulk_update`: a row
of the range (`existing_map` holds the rows with `date >= start_date`)
whose key was computed is overwritten in place with the computed columns,
any other row is untouched.  The `existing_map` dict keyed by the
unique-together key is modelled by `find?`; the two agree on tables whose
keys are unique, which the database constraint enforces. -/
def upsertRow (computed : List Summary) (startDay : Nat) (s : Summary) : Summary :=
  if startDay ≤ s.date then
    match computed.find? (fun c => decide (summaryKey c = summaryKey s)) with
    | some c => overwriteFrom c s
    | none => s
  else s

/-- The upsert of one `precalculate_stats` run over a summary table
(precalculate_stats.py 136-193): rows of the range whose key was computed
are overwritten in place; computed keys with no existing row are appended
by `bulk_create`. -/
def runPrecalc (table : List Summary) (startDay : Nat) (events : List Event) : List Summary :=
  let computed := precalcCompute startDay events
  table.map (upsertRow computed startDay)
  ++ computed.filter (fun c =>
      ! table.any (fun s => decide (startDay ≤ s.date) && decide (summaryKey s = summaryKey c)))

/- ### Fast query path (`services.py` lines 388-607) -/

/-- The HLL configuration of the fast path: the `IDEEZA_USE_HLL` setting and
the Redis client, modelled as the `PFCOUNT` operation when a client is
available (`Except.error` is a raised Redis exception). -/
structure HllCfg where
  useHll : Bool
  redis : Option (List String → Except Unit Nat)

/-- Fast path with the approximate backend off. -/
def exactCfg : HllCfg := { useHll := false, redis := none }

/-- Grouping value `F(group_field)` of a summary row:
`country__code` or `author__username`, both nullable. -/
def summaryGroupKey (db : DB) (ot : ObjectType) (s : Summary) : Option String :=
  match ot with
  | ObjectType.country => s.countryId.map db.countryCode
  | ObjectType.user => s.authorId.map db.username

/-- The summary rows every aggregation of the fast path runs over:
`DailyAnalyticsSummary.objects.filter(query_filters).filter(**null_filter)`
(services.py 431-433). -/
def summaryRows (db : DB) (ot : ObjectType) (f : Filters) : List Summary :=
  db.summaries.filter (fun s =>
    buildSummaryFilters db f s && (summaryGroupKey db ot s).isSome)

/-- The distinct group values of the filtered rows (the `x` values of
`data`, hence also `group_keys`). -/
def summaryGroupKeys (db : DB) (ot : ObjectType) (f : Filters) : List (Option String) :=
  ((summaryRows db ot f).map (summaryGroupKey db ot)).dedup

/-- The rows re-queried with the extra `group_field__in=group_keys` clause
(services.py 545-549, 565-569, 584-589). -/
def summaryRowsIn (db : DB) (ot : ObjectType) (f : Filters) : List Summary :=
  (summaryRows db ot f).filter
    (fun s => decide (summaryGroupKey db ot s ∈ summaryGroupKeys db ot f))

/-- Exact de-duplicated count for one group: the size of the union of the
`blog_ids` sets of the group's rows (`union_map` of services.py 552-562,
572-581, 591-600; a group absent from the map defaults to the empty set). -/
def exactUnionSize (db : DB) (ot : ObjectType) (f : Filters) (g : Option String) : Nat :=
  (((summaryRowsIn db ot f).filter (fun s => decide (summaryGroupKey db ot s = g))).flatMap
    (fun s => s.blog_ids)).dedup.length

/-- The Redis HLL key written by the job and rebuilt by the query
(`analytics:hll:{date}:{country_id or all}:{author_id or all}`); Python's
`or 'all'` makes id `0` render as `all` as well. -/
def hllKeyStr (s : Summary) : String :=
  "analytics:hll:" ++ toString s.date ++ ":"
    ++ (match s.countryId with
        | some c => if c = 0 then "all" else toString c
        | none => "all")
    ++ ":"
    ++ (match s.authorId with
        | some a => if a = 0 then "all" else toString a
        | none => "all")

/-- `group_hll_keys[g]`: the HLL keys of the rows of group `g`
(services.py 507-524). -/
def groupHllKeys (db : DB) (ot : ObjectType) (f : Filters) (g : Option String) : List String :=
  ((summaryRowsIn db ot f).filter (fun s => decide (summaryGroupKey db ot s = g))).map hllKeyStr

/-- The approximate pass over one entry (services.py 526-539): `PFCOUNT` of
the group's keys, `0` when the key list is empty or the call raised. -/
def approxY (pf : List String → Except Unit Nat) (ks : List String) : Nat :=
  match ks with
  | [] => 0
  | _ =>
    match pf ks with
    | Except.ok n => n
    | Except.error _ => 0

/-- The `y` correction block of `get_grouped_analytics_fast`
(services.py 445-604), entered when `data` is non-empty.  The first
`IDEEZA_USE_HLL` block (459-495) only logs and assigns a dead local, so it
is not modelled.  With HLL and a client: the approximate pass writes each
entry's `y`, then every entry whose `y` equals zero — failure or not — is
recomputed by the exact union (541-562).  Without HLL, or without a
client, every entry gets the exact union (563-600). -/
def applyYCorrection (cfg : HllCfg) (db : DB) (ot : ObjectType) (f : Filters)
    (data : List GroupEntry) : List GroupEntry :=
  if cfg.useHll then
    match cfg.redis with
    | some pf =>
      let data1 := data.map (fun e =>
        { e with y := approxY pf (groupHllKeys db ot f e.x) })
      if (data1.filter (fun e => decide (e.y = 0))).isEmpty then data1
      else data1.map (fun e =>
        if e.y = 0 then { e with y := exactUnionSize db ot f e.x } else e)
    | none => data.map (fun e => { e with y := exactUnionSize db ot f e.x })
  else data.map (fun e => { e with y := exactUnionSize db ot f e.x })

/-- `AnalyticsService.get_grouped_analytics_fast` (services.py 388-607)
after the cache read: empty result when no summaries exist at all, else
group the filtered non-null-dimension rows, annotate
`y = SUM(unique_blogs)`, `z = SUM(total_views)`, order by descending `z`,
then correct `y` per group. -/
def getGroupedAnalyticsFast (cfg : HllCfg) (db : DB) (ot : ObjectType) (f : Filters) :
    List GroupEntry :=
  if db.summaries.isEmpty then []
  else
    let rows := summaryRows db ot f
    let keys := (rows.map (summaryGroupKey db ot)).dedup
    let data := keys.map (fun g =>
      let grp := rows.filter (fun s => decide (summaryGroupKey db ot s = g))
      { x := g
      , y := (grp.map (fun s => s.unique_blogs)).sum
      , z := (grp.map (fun s => s.total_views)).sum })
    let data := List.insertionSort zDesc data
    if data.isEmpty then data
    else applyYCorrection cfg db ot f data

/- ### Cache wrappers (`services.py` lines 109-113, 184-197, 403-417, 606) -/

/-- Deterministic cache key of an endpoint call
(`_generate_cache_key`, with the canonical-serialization-plus-hash step
modelled by the canonical serialization itself). -/
def cacheKey (pre : String) (payload : String) : String :=
  "analytics:" ++ pre ++ ":" ++ payload

/-- Cache key of the fast grouped endpoint. -/
def cacheKeyFast (ot : ObjectType) (f : Filters) : String :=
  cacheKey "grouped_fast" (reprStr ot ++ reprStr f)

/-- Cache key of the performance endpoint. -/
def cacheKeyPerf (f : Filters) : String :=
  cacheKey "perf" (reprStr f)

/-- `get_grouped_analytics_fast` with its cache: result plus the list of
cache writes the call performs.  A hit returns the cached value; the
cold-start guard returns before any write; otherwise the computed data is
written through. -/
def getGroupedAnalyticsFastCached (cfg : HllCfg) (db : DB)
    (cacheGet : String → Option (List GroupEntry)) (ot : ObjectType) (f : Filters) :
    List GroupEntry × List (String × List GroupEntry) :=
  let key := cacheKeyFast ot f
  match cacheGet key with
  | some v => (v, [])
  | none =>
    if db.summaries.isEmpty then ([], [])
    else
      let data := getGroupedAnalyticsFast cfg db ot f
      (data, [(key, data)])

/-- `get_performance_analytics` with its cache (services.py 172-312): a
hit returns the cached value; no matching events returns before any
write; otherwise the computed series is written through.  (The second
early return on a null min/max is unreachable once the queryset is
non-empty and is not modelled.) -/
def getPerformanceAnalyticsCached (db : DB)
    (cacheGet : String → Option (List PerfEntry)) (f : Filters) (metric : String) :
    List PerfEntry × List (String × List PerfEntry) :=
  let key := cacheKeyPerf f
  match cacheGet key with
  | some v => (v, [])
  | none =>
    let queryset := db.events.filter (fun e => buildBlogviewFilters db f e)
    if queryset.isEmpty then ([], [])
    else
      let results := perfCompute db f metric queryset
      (results, [(key, results)])

/- ### Commit and lock-release phase of the job (`precalculate_stats.py`
lines 169-236), for claim C6 -/

/-- The state the commit phase of the job manipulates. -/
structure JobState where
  table : List Summary
  cacheLockHeld : Bool
  advisoryLockHeld : Bool
deriving DecidableEq, Repr

/-- The persistence and lock-release tail of `Command.handle`
(precalculate_stats.py 175-236), for a non-dry run: the upserts commit in
one `transaction.atomic()` block — when the commit raises, the
transaction rolls back and the exception propagates out of `handle`
immediately, carrying the state at that point; the `cache.delete` /
`pg_advisory_unlock` release statements are ordinary sequential code after
the block, not a `finally`, so they only run on the success path. -/
def persistAndRelease (commitOk : Bool) (startDay : Nat) (events : List Event)
    (st : JobState) : Except (String × JobState) JobState :=
  if commitOk then
    let st1 := { st with table := runPrecalc st.table startDay events }
    Except.ok { st1 with cacheLockHeld := false, advisoryLockHeld := false }
  else
    Except.error ("PersistenceFailure", st)

/- ### Observation helpers used by the claim statements -/

/-- The `z` value an output list reports for group `g`: the sum of the `z`
of the entries with `x = g` (each group occurs at most once, so this is
its `z`, or `0` when the group is absent). -/
def zOf (l : List GroupEntry) (g : Option String) : Nat :=
  ((l.filter (fun e => decide (e.x = g))).map (fun e => e.z)).sum

/-- A start bound that lies on a day boundary (or is absent): the instant
filter `timestamp >= start_date` and the day filter
`date >= start_date.date()` then select the same events. -/
def startAligned (f : Filters) : Bool :=
  match f.start_date with
  | some sd => decide (sd.sec = 0)
  | none => true

/-- An end bound on the last second of its day (or absent): the instant
filter `timestamp <= end_date` and the day filter
`date <= end_date.date()` then select the same events. -/
def endAligned (f : Filters) : Bool :=
  match f.end_date with
  | some ed => decide (ed.sec = 86399)
  | none => true

/-- Timestamps carry a valid seconds-within-day component. -/
def eventsWf (db : DB) : Bool :=
  db.events.all (fun e => decide (e.timestamp.sec < 86400))

/-- Every event lies inside the range summarised by the job. -/
def covers (startDay : Nat) (db : DB) : Bool :=
  db.events.all (fun e => decide (startDay ≤ eventDate e))

/-!
## Theorems

Helper lemmas first, then one theorem per claim (with witnesses and
counterexamples where required).
-/

/- ### Helper lemmas for growth (C3) -/

theorem growthGo_map_z (prev : Nat) (raw : List PerfRaw) :
    (growthGo prev raw).map (fun e => e.z)
      = (specGrowthZ prev (raw.map (fun e => e.views))).map roundTo2 := by
  induction raw generalizing prev with
  | nil => rfl
  | cons e rest ih =>
    simp only [growthGo, specGrowthZ, List.map_cons, List.map]
    exact congrArg _ (ih e.views)

theorem roundTo2_of_floor (q : Rat) (n : Int)
    (h1 : (n : Rat) ≤ q * 100 + 1 / 2) (h2 : q * 100 + 1 / 2 < n + 1) :
    roundTo2 q = (n : Rat) / 100 := by
  rw [roundTo2, Int.floor_eq_iff.mpr ⟨h1, by exact_mod_cast h2⟩]

theorem roundTo2_zero : roundTo2 0 = 0 := by
  rw [roundTo2_of_floor 0 0 (by norm_num) (by norm_num)]
  norm_num

theorem roundTo2_neg_fifty : roundTo2 (-50) = -50 := by
  rw [roundTo2_of_floor _ (-5000) (by norm_num) (by norm_num)]
  norm_num

theorem roundTo2_third : roundTo2 (100 / 3) = 3333 / 100 := by
  rw [roundTo2_of_floor _ 3333 (by norm_num) (by norm_num)]
  norm_num

/- ### C3 -/

/-- C3 counterexample: for the view-count sequence `[3, 4]` the code returns
`z = 33.33` for the second period (rounded to two decimals), not the exact
`(4 - 3) / 3 * 100 = 100/3` the claim states. -/
theorem growth_not_unrounded_on_3_4 :
    (calculateGrowthPeriods
        [{ period := 0, views := 3, blogs := 0 }, { period := 1, views := 4, blogs := 0 }]).map
        (fun e => e.z)
      ≠ [0, (100 : Rat) / 3] := by
  rw [calculateGrowthPeriods, growthGo_map_z]
  simp only [List.map, specGrowthZ]
  norm_num [roundTo2_zero, roundTo2_third]

/-- C3 (amended): the growth value is `0.0` for the first period, and for a
later period it is `((current - previous) / previous) * 100` **rounded to
two decimals** when the previous count is positive and `0.0` when the
previous count is zero; in particular `[0, 100, 50]` yields
`[0.0, 0.0, -50.0]`. -/
theorem growth_is_rounded_spec_formula :
    (∀ raw : List PerfRaw,
      (calculateGrowthPeriods raw).map (fun e => e.z)
        = (specGrowthZ 0 (raw.map (fun e => e.views))).map roundTo2)
    ∧ (calculateGrowthPeriods
        [{ period := 0, views := 0, blogs := 0 }, { period := 1, views := 100, blogs := 0 },
          { period := 2, views := 50, blogs := 0 }]).map (fun e => e.z)
      = [0, 0, -50] := by
  constructor
  · intro raw
    exact growthGo_map_z 0 raw
  · rw [calculateGrowthPeriods, growthGo_map_z]
    simp only [List.map, specGrowthZ]
    norm_num [roundTo2_zero, roundTo2_neg_fifty]

/- ### C5 -/

/-- C5: `validate` rejects a present-but-empty inclusion or exclusion list
with a `ValidationError`, and a supplied range shortcut forces
`start_date = now - range_days` and `end_date = now` in the validated
output, overwriting any explicit bounds. -/
theorem validate_rejects_empty_lists_and_range_overrides :
    (∀ (now : DateTime) (d : FilterInput), d.country_codes = some [] →
      validateFilter now d = Except.error "country_codes: Cannot be an empty list.")
    ∧ (∀ (now : DateTime) (d : FilterInput), d.exclude_country_codes = some [] →
      ∃ m, validateFilter now d = Except.error m)
    ∧ (∀ (now : DateTime) (d : FilterInput) (r : String) (n : Nat) (out : FilterInput),
      d.range = some r → RANGE_DAYS r = some n → validateFilter now d = Except.ok out →
      out.start_date = some (subDays now n) ∧ out.end_date = some now) := by
  refine ⟨?_, ?_, ?_⟩
  · intro now d h
    simp [validateFilter, h]
  · intro now d h
    by_cases hc : d.country_codes = some []
    · exact ⟨"country_codes: Cannot be an empty list.", by simp [validateFilter, hc]⟩
    · exact ⟨"exclude_country_codes: Cannot be an empty list.", by simp [validateFilter, hc, h]⟩
  · intro now d r n out hr hn hok
    by_cases hc : d.country_codes = some []
    · simp [validateFilter, hc] at hok
    by_cases hx : d.exclude_country_codes = some []
    · simp [validateFilter, hc, hx] at hok
    have hre : r ≠ "" := by
      intro h0
      rw [h0] at hn
      simp [RANGE_DAYS] at hn
    have htr : truthyStr d.range = some r := by
      simp [truthyStr, hr, hre]
    simp only [validateFilter, if_neg hc, if_neg hx, htr, hn] at hok
    cases hok
    exact ⟨rfl, rfl⟩

/-- Witness for C5 at concrete inputs: an empty `country_codes` list and an
empty `exclude_country_codes` list are rejected, and `range = "week"`
rewrites explicit bounds to `[now - 7 days, now]`. -/
theorem validate_witness :
    validateFilter { day := 100, sec := 7 }
        { range := none, start_date := none, end_date := none, year := none
        , country_codes := some [], exclude_country_codes := none
        , author_username := none, blog_id := none, compare := none }
      = Except.error "country_codes: Cannot be an empty list."
    ∧ (∃ m, validateFilter { day := 100, sec := 7 }
        { range := none, start_date := none, end_date := none, year := none
        , country_codes := none, exclude_country_codes := some []
        , author_username := none, blog_id := none, compare := none }
      = Except.error m)
    ∧ ({ range := some "week", start_date := some { day := 93, sec := 7 }
       , end_date := some { day := 100, sec := 7 }, year := none
       , country_codes := none, exclude_country_codes := none
       , author_username := none, blog_id := none, compare := none } : FilterInput).start_date
        = some (subDays { day := 100, sec := 7 } 7)
    ∧ ({ range := some "week", start_date := some { day := 93, sec := 7 }
       , end_date := some { day := 100, sec := 7 }, year := none
       , country_codes := none, exclude_country_codes := none
       , author_username := none, blog_id := none, compare := none } : FilterInput).end_date
        = some { day := 100, sec := 7 } :=
  ⟨validate_rejects_empty_lists_and_range_overrides.1 _ _ rfl,
   validate_rejects_empty_lists_and_range_overrides.2.1 _ _ rfl,
   validate_rejects_empty_lists_and_range_overrides.2.2 { day := 100, sec := 7 }
      { range := some "week", start_date := some { day := 1, sec := 1 }
      , end_date := some { day := 2, sec := 2 }, year := none
      , country_codes := none, exclude_country_codes := none
      , author_username := none, blog_id := none, compare := none }
      "week" 7 _ rfl rfl rfl⟩

/- ### C6 -/

/-- C6: when the atomic persistence commit raises, the run ends by
propagating the exception with the summary table unchanged (nothing is
partially committed — the rollback half of the claim holds), but with the
lock flags exactly as they were: the release statements sit after the
transaction block rather than in a `finally`, so the acquired lock is NOT
released before the run ends, contradicting the claim's second half. -/
theorem persist_failure_rolls_back_but_skips_release
    (startDay : Nat) (events : List Event) (st : JobState) :
    persistAndRelease false startDay events st
      = Except.error ("PersistenceFailure", st) := rfl

/-- Witness for C6 at a concrete failing run: a held cache lock stays held
and the table stays unchanged when the commit fails. -/
theorem persist_failure_witness :
    persistAndRelease false 0
        [{ id := 1, blogId := 1, authorId := 1, countryId := none
         , timestamp := { day := 0, sec := 0 } }]
        { table := [], cacheLockHeld := true, advisoryLockHeld := false }
      = Except.error ("PersistenceFailure",
          { table := [], cacheLockHeld := true, advisoryLockHeld := false }) :=
  persist_failure_rolls_back_but_skips_release 0 _ _

/- ### C8 -/

/-- C8: for every database state, filter spec and `top_type`, the list
returned by `get_top_analytics` has at most 10 entries and is sorted in
non-increasing order of `y`. -/
theorem top_analytics_at_most_ten_sorted (db : DB) (tt : TopType) (f : Filters) :
    (getTopAnalytics db tt f).length ≤ 10
      ∧ List.Sorted yDesc (getTopAnalytics db tt f) := by
  constructor
  · rw [getTopAnalytics]
    rw [List.length_take]
    exact Nat.min_le_left _ _
  · rw [getTopAnalytics]
    exact List.Pairwise.sublist (List.take_sublist _ _) (List.sorted_insertionSort yDesc _)

/- ### C10 -/

/-- C10: the cold-start early return of the fast grouped endpoint (no
summary rows at all) and the no-matching-events early return of the
performance endpoint both return the empty list without performing any
cache write. -/
theorem cold_empty_results_write_no_cache :
    (∀ (cfg : HllCfg) (db : DB) (cacheGet : String → Option (List GroupEntry))
      (ot : ObjectType) (f : Filters),
      cacheGet (cacheKeyFast ot f) = none → db.summaries = [] →
      getGroupedAnalyticsFastCached cfg db cacheGet ot f = ([], []))
    ∧ (∀ (db : DB) (cacheGet : String → Option (List PerfEntry)) (f : Filters)
      (metric : String),
      cacheGet (cacheKeyPerf f) = none →
      db.events.filter (fun e => buildBlogviewFilters db f e) = [] →
      getPerformanceAnalyticsCached db cacheGet f metric = ([], [])) := by
  constructor
  · intro cfg db cacheGet ot f hmiss hempty
    simp [getGroupedAnalyticsFastCached, hmiss, hempty]
  · intro db cacheGet f metric hmiss hempty
    simp [getPerformanceAnalyticsCached, hmiss, hempty]

/-- Witness for C10 at a concrete cold state: an empty summary table and a
filter matching no events produce `([], [])` — empty result, no cache
writes. -/
theorem cold_empty_witness :
    getGroupedAnalyticsFastCached exactCfg
        { events := [], summaries := [], blogs := []
        , countryCode := fun _ => "", username := fun _ => "", blogTitle := fun _ => "" }
        (fun _ => none) ObjectType.country Filters.empty = ([], [])
    ∧ getPerformanceAnalyticsCached
        { events := [], summaries := [], blogs := []
        , countryCode := fun _ => "", username := fun _ => "", blogTitle := fun _ => "" }
        (fun _ => none) Filters.empty "viewed" = ([], []) :=
  ⟨cold_empty_results_write_no_cache.1 exactCfg _ _ ObjectType.country Filters.empty rfl rfl,
   cold_empty_results_write_no_cache.2 _ _ Filters.empty "viewed" rfl rfl⟩

/- ### C9 -/

/-- C9: every summary row computed by a `precalculate_stats` run stores a
duplicate-free `blog_ids` list whose length is exactly the stored
`unique_blogs` count: the separately computed per-day distinct count and
per-day distinct member set are never inconsistent. -/
theorem summary_unique_blogs_matches_blog_ids (startDay : Nat) (events : List Event)
    (s : Summary) (hs : s ∈ precalcCompute startDay events) :
    s.blog_ids.Nodup ∧ s.unique_blogs = s.blog_ids.length := by
  rw [precalcCompute] at hs
  obtain ⟨k, hk, rfl⟩ := List.mem_map.mp hs
  set filtered := events.filter (fun e => decide (startDay ≤ eventDate e)) with hfil
  have hnd : ((filtered.map (fun e => (eventKey e, e.blogId))).dedup.filter
      (fun p => decide (p.1 = k))).Nodup :=
    (List.nodup_dedup _).filter _
  have hinj : ∀ x ∈ (filtered.map (fun e => (eventKey e, e.blogId))).dedup.filter
      (fun p => decide (p.1 = k)),
      ∀ y ∈ (filtered.map (fun e => (eventKey e, e.blogId))).dedup.filter
      (fun p => decide (p.1 = k)),
      x.2 = y.2 → x = y := by
    intro x hx y hy hxy
    have hx1 : x.1 = k := by
      have := (List.mem_filter.mp hx).2
      simpa using this
    have hy1 : y.1 = k := by
      have := (List.mem_filter.mp hy).2
      simpa using this
    cases x
    cases y
    simp only at hx1 hy1 hxy
    simp [hx1, hy1, hxy]
  have hnodupA : (mkSummary filtered k).blog_ids.Nodup := by
    rw [mkSummary]
    exact List.Nodup.map_on hinj hnd
  refine ⟨hnodupA, ?_⟩
  have hmem : ∀ b : Nat,
      b ∈ (mkSummary filtered k).blog_ids ↔
        b ∈ ((filtered.filter (fun e => decide (eventKey e = k))).map
          (fun e => e.blogId)).dedup := by
    intro b
    simp only [mkSummary, List.mem_map, List.mem_filter, List.mem_dedup]
    constructor
    · rintro ⟨p, ⟨⟨e, he, rfl⟩, hp1⟩, hp2⟩
      exact ⟨e, ⟨he, by simpa using hp1⟩, hp2⟩
    · rintro ⟨e, ⟨he, hek⟩, hb⟩
      refine ⟨(eventKey e, e.blogId), ⟨⟨e, he, rfl⟩, ?_⟩, hb⟩
      simpa using hek
  have hperm : List.Perm (mkSummary filtered k).blog_ids
      ((filtered.filter (fun e => decide (eventKey e = k))).map (fun e => e.blogId)).dedup :=
    (List.perm_ext_iff_of_nodup hnodupA (List.nodup_dedup _)).mpr hmem
  have hlen := hperm.length_eq
  simp only [mkSummary, List.length_map] at hlen ⊢
  exact hlen.symm

/-- Witness for C9 on a concrete run: the summary rows of a two-event day
satisfy the invariant. -/
theorem summary_invariant_witness :
    ({ date := 3, countryId := some 1, authorId := some 1, total_views := 2
     , unique_blogs := 2, blog_ids := [7, 8] } : Summary)
      ∈ precalcCompute 0
        [{ id := 1, blogId := 7, authorId := 1, countryId := some 1
         , timestamp := { day := 3, sec := 0 } },
         { id := 2, blogId := 8, authorId := 1, countryId := some 1
         , timestamp := { day := 3, sec := 5 } }]
    ∧ (({ date := 3, countryId := some 1, authorId := some 1, total_views := 2
        , unique_blogs := 2, blog_ids := [7, 8] } : Summary).blog_ids.Nodup
      ∧ ({ date := 3, countryId := some 1, authorId := some 1, total_views := 2
         , unique_blogs := 2, blog_ids := [7, 8] } : Summary).unique_blogs
        = ({ date := 3, countryId := some 1, authorId := some 1, total_views := 2
           , unique_blogs := 2, blog_ids := [7, 8] } : Summary).blog_ids.length) :=
  ⟨by decide, summary_unique_blogs_matches_blog_ids 0
    [{ id := 1, blogId := 7, authorId := 1, countryId := some 1
     , timestamp := { day := 3, sec := 0 } },
     { id := 2, blogId := 8, authorId := 1, countryId := some 1
     , timestamp := { day := 3, sec := 5 } }]
    { date := 3, countryId := some 1, authorId := some 1, total_views := 2
    , unique_blogs := 2, blog_ids := [7, 8] } (by decide)⟩

/- ### Helper lemmas for the fast path (C2, C7) -/

theorem rowsIn_filter_group (db : DB) (ot : ObjectType) (f : Filters) (g : Option String) :
    (summaryRowsIn db ot f).filter (fun s => decide (summaryGroupKey db ot s = g))
      = (summaryRows db ot f).filter (fun s => decide (summaryGroupKey db ot s = g)) := by
  rw [summaryRowsIn, List.filter_filter]
  apply List.filter_congr
  intro s hs
  have hmem : summaryGroupKey db ot s ∈ summaryGroupKeys db ot f := by
    rw [summaryGroupKeys, List.mem_dedup]
    exact List.mem_map.mpr ⟨s, hs, rfl⟩
  simp [hmem]

theorem exactUnionSize_eq (db : DB) (ot : ObjectType) (f : Filters) (g : Option String) :
    exactUnionSize db ot f g
      = (((summaryRows db ot f).filter (fun s => decide (summaryGroupKey db ot s = g))).flatMap
          (fun s => s.blog_ids)).dedup.length := by
  rw [exactUnionSize, rowsIn_filter_group]

/- ### C2 -/

/-- C2: with the approximate backend disabled, the `y` value of every entry
returned by the fast grouped query is the cardinality of the union of the
per-day `blog_ids` sets of the filtered summary rows of that group —
the initially annotated `SUM(unique_blogs)` is always overwritten. -/
theorem fast_y_is_exact_union (cfg : HllCfg) (db : DB) (ot : ObjectType) (f : Filters)
    (hH : cfg.useHll = false) (e : GroupEntry)
    (he : e ∈ getGroupedAnalyticsFast cfg db ot f) :
    e.y = (((summaryRows db ot f).filter (fun s => decide (summaryGroupKey db ot s = e.x))).flatMap
        (fun s => s.blog_ids)).dedup.length := by
  simp only [getGroupedAnalyticsFast] at he
  split at he
  · simp at he
  · simp only [applyYCorrection, hH, Bool.false_eq_true, if_false] at he
    split at he
    · rename_i hde
      rw [List.isEmpty_iff] at hde
      rw [hde] at he
      simp at he
    · obtain ⟨e0, he0, rfl⟩ := List.mem_map.mp he
      simpa using exactUnionSize_eq db ot f e0.x

/-- Witness for C2 on a concrete store: two summary rows of the same
country with `blog_ids` `[1, 2]` and `[2, 3]` (per-day counts 2 and 2)
yield `y = 3`, the union size, not the sum `4`. -/
theorem fast_y_witness :
    exactCfg.useHll = false
    ∧ ({ x := some "US", y := 3, z := 3 } : GroupEntry)
      ∈ getGroupedAnalyticsFast exactCfg
        { events := [], summaries := [
            { date := 1, countryId := some 1, authorId := some 1, total_views := 2
            , unique_blogs := 2, blog_ids := [1, 2] },
            { date := 2, countryId := some 1, authorId := some 1, total_views := 1
            , unique_blogs := 2, blog_ids := [2, 3] }]
        , blogs := [], countryCode := fun _ => "US", username := fun _ => "u"
        , blogTitle := fun _ => "t" }
        ObjectType.country Filters.empty
    ∧ ({ x := some "US", y := 3, z := 3 } : GroupEntry).y
      = (((summaryRows
          { events := [], summaries := [
              { date := 1, countryId := some 1, authorId := some 1, total_views := 2
              , unique_blogs := 2, blog_ids := [1, 2] },
              { date := 2, countryId := some 1, authorId := some 1, total_views := 1
              , unique_blogs := 2, blog_ids := [2, 3] }]
          , blogs := [], countryCode := fun _ => "US", username := fun _ => "u"
          , blogTitle := fun _ => "t" }
          ObjectType.country Filters.empty).filter
          (fun s => decide (summaryGroupKey
            { events := [], summaries := [
                { date := 1, countryId := some 1, authorId := some 1, total_views := 2
                , unique_blogs := 2, blog_ids := [1, 2] },
                { date := 2, countryId := some 1, authorId := some 1, total_views := 1
                , unique_blogs := 2, blog_ids := [2, 3] }]
            , blogs := [], countryCode := fun _ => "US", username := fun _ => "u"
            , blogTitle := fun _ => "t" }
            ObjectType.country s = ({ x := some "US", y := 3, z := 3 } : GroupEntry).x))).flatMap
          (fun s => s.blog_ids)).dedup.length :=
  ⟨rfl, by decide,
   fast_y_is_exact_union exactCfg
     { events := [], summaries := [
         { date := 1, countryId := some 1, authorId := some 1, total_views := 2
         , unique_blogs := 2, blog_ids := [1, 2] },
         { date := 2, countryId := some 1, authorId := some 1, total_views := 1
         , unique_blogs := 2, blog_ids := [2, 3] }]
     , blogs := [], countryCode := fun _ => "US", username := fun _ => "u"
     , blogTitle := fun _ => "t" }
     ObjectType.country Filters.empty rfl
     { x := some "US", y := 3, z := 3 } (by decide)⟩

/- ### C7 -/

/-- C7 counterexample: with HLL enabled and a reachable backend whose
`PFCOUNT` legitimately returns `0` (no failure raised) for a group with a
non-empty key list, the group is NOT reported as a valid zero: the
zero-test sends it to the exact-union fallback, which reports `1`. -/
theorem approx_zero_not_reported_as_zero :
    approxY (fun _ => Except.ok 0)
        (groupHllKeys
          { events := [], summaries := [
              { date := 1, countryId := some 1, authorId := some 1, total_views := 1
              , unique_blogs := 1, blog_ids := [5] }]
          , blogs := [], countryCode := fun _ => "US", username := fun _ => "u"
          , blogTitle := fun _ => "t" }
          ObjectType.country Filters.empty (some "US")) = 0
    ∧ (getGroupedAnalyticsFast { useHll := true, redis := some (fun _ => Except.ok 0) }
        { events := [], summaries := [
            { date := 1, countryId := some 1, authorId := some 1, total_views := 1
            , unique_blogs := 1, blog_ids := [5] }]
        , blogs := [], countryCode := fun _ => "US", username := fun _ => "u"
        , blogTitle := fun _ => "t" }
        ObjectType.country Filters.empty).map (fun e => e.y) = [1] := by
  constructor
  · decide
  · decide

/-- C7 (amended): with the approximate backend enabled and a client
available, an entry's reported `y` is the approximate count when that
count is non-zero, and the exact-union size otherwise: the fallback is
triggered precisely by the test `y == 0` after the approximate pass — on
explicitly caught fetch failures and empty key lists, but also on
legitimate approximate zeros, which are therefore recomputed exactly
rather than reported as the approximate zero. -/
theorem fast_hll_falls_back_exactly_on_zero (cfg : HllCfg) (db : DB) (ot : ObjectType)
    (f : Filters) (pf : List String → Except Unit Nat)
    (hU : cfg.useHll = true) (hR : cfg.redis = some pf) (e : GroupEntry)
    (he : e ∈ getGroupedAnalyticsFast cfg db ot f) :
    e.y = (if approxY pf (groupHllKeys db ot f e.x) = 0
           then exactUnionSize db ot f e.x
           else approxY pf (groupHllKeys db ot f e.x)) := by
  simp only [getGroupedAnalyticsFast] at he
  split at he
  · simp at he
  · simp only [applyYCorrection, hU, hR, if_true] at he
    split at he
    · rename_i hde
      rw [List.isEmpty_iff] at hde
      rw [hde] at he
      simp at he
    · split at he
      · rename_i hrem
        rw [List.isEmpty_iff, List.filter_eq_nil_iff] at hrem
        obtain ⟨e0, he0, rfl⟩ := List.mem_map.mp he
        have hne := hrem _ (List.mem_map.mpr ⟨e0, he0, rfl⟩)
        simp only [decide_eq_true_eq] at hne
        simp only at hne ⊢
        rw [if_neg hne]
      · obtain ⟨e1, he1, rfl⟩ := List.mem_map.mp he
        obtain ⟨e0, he0, rfl⟩ := List.mem_map.mp he1
        by_cases hz : approxY pf (groupHllKeys db ot f e0.x) = 0
        · simp [hz]
        · simp [hz]

/-- Witness for C7 (amended) on a concrete store: a `PFCOUNT` answering `2`
is kept as the reported `y`. -/
theorem fast_hll_witness :
    ({ useHll := true, redis := some (fun _ => Except.ok 2) } : HllCfg).useHll = true
    ∧ ({ x := some "US", y := 2, z := 1 } : GroupEntry)
      ∈ getGroupedAnalyticsFast { useHll := true, redis := some (fun _ => Except.ok 2) }
        { events := [], summaries := [
            { date := 1, countryId := some 1, authorId := some 1, total_views := 1
            , unique_blogs := 1, blog_ids := [5] }]
        , blogs := [], countryCode := fun _ => "US", username := fun _ => "u"
        , blogTitle := fun _ => "t" }
        ObjectType.country Filters.empty
    ∧ ({ x := some "US", y := 2, z := 1 } : GroupEntry).y
      = (if approxY (fun _ => Except.ok 2)
            (groupHllKeys
              { events := [], summaries := [
                  { date := 1, countryId := some 1, authorId := some 1, total_views := 1
                  , unique_blogs := 1, blog_ids := [5] }]
              , blogs := [], countryCode := fun _ => "US", username := fun _ => "u"
              , blogTitle := fun _ => "t" }
              ObjectType.country Filters.empty ({ x := some "US", y := 2, z := 1 } : GroupEntry).x) = 0
         then exactUnionSize
              { events := [], summaries := [
                  { date := 1, countryId := some 1, authorId := some 1, total_views := 1
                  , unique_blogs := 1, blog_ids := [5] }]
              , blogs := [], countryCode := fun _ => "US", username := fun _ => "u"
              , blogTitle := fun _ => "t" }
              ObjectType.country Filters.empty ({ x := some "US", y := 2, z := 1 } : GroupEntry).x
         else approxY (fun _ => Except.ok 2)
            (groupHllKeys
              { events := [], summaries := [
                  { date := 1, countryId := some 1, authorId := some 1, total_views := 1
                  , unique_blogs := 1, blog_ids := [5] }]
              , blogs := [], countryCode := fun _ => "US", username := fun _ => "u"
              , blogTitle := fun _ => "t" }
              ObjectType.country Filters.empty ({ x := some "US", y := 2, z := 1 } : GroupEntry).x)) :=
  ⟨rfl, by decide,
   fast_hll_falls_back_exactly_on_zero
     { useHll := true, redis := some (fun _ => Except.ok 2) }
     { events := [], summaries := [
         { date := 1, countryId := some 1, authorId := some 1, total_views := 1
         , unique_blogs := 1, blog_ids := [5] }]
     , blogs := [], countryCode := fun _ => "US", username := fun _ => "u"
     , blogTitle := fun _ => "t" }
     ObjectType.country Filters.empty (fun _ => Except.ok 2) rfl rfl
     { x := some "US", y := 2, z := 1 } (by decide)⟩

/- ### Helper lemmas for the pre-calculation upsert (C4) -/

theorem summaryKey_overwriteFrom (c s : Summary) :
    summaryKey (overwriteFrom c s) = summaryKey s := rfl

theorem date_overwriteFrom (c s : Summary) : (overwriteFrom c s).date = s.date := rfl

theorem overwriteFrom_self (s : Summary) : overwriteFrom s s = s := rfl

theorem overwriteFrom_overwriteFrom (c s : Summary) :
    overwriteFrom c (overwriteFrom c s) = overwriteFrom c s := rfl

theorem summaryKey_upsertRow (computed : List Summary) (startDay : Nat) (s : Summary) :
    summaryKey (upsertRow computed startDay s) = summaryKey s := by
  rw [upsertRow]
  split
  · split
    · rfl
    · rfl
  · rfl

theorem date_upsertRow (computed : List Summary) (startDay : Nat) (s : Summary) :
    (upsertRow computed startDay s).date = s.date := by
  rw [upsertRow]
  split
  · split
    · rfl
    · rfl
  · rfl

theorem precalcCompute_date_ge (startDay : Nat) (events : List Event) (c : Summary)
    (hc : c ∈ precalcCompute startDay events) : startDay ≤ c.date := by
  rw [precalcCompute] at hc
  obtain ⟨k, hk, rfl⟩ := List.mem_map.mp hc
  rw [List.mem_dedup] at hk
  obtain ⟨e, he, rfl⟩ := List.mem_map.mp hk
  have := (List.mem_filter.mp he).2
  simp only [decide_eq_true_eq] at this
  exact this

theorem precalcCompute_keys_nodup (startDay : Nat) (events : List Event) :
    ((precalcCompute startDay events).map summaryKey).Nodup := by
  rw [precalcCompute, List.map_map]
  have hinj : Function.Injective
      (fun k : Nat × Option Nat × Nat => (k.1, k.2.1, some k.2.2)) := by
    rintro ⟨a1, a2, a3⟩ ⟨b1, b2, b3⟩ h
    simp only [Prod.mk.injEq, Option.some.injEq] at h
    obtain ⟨h1, h2, h3⟩ := h
    simp [h1, h2, h3]
  have : (summaryKey ∘ mkSummary (events.filter (fun e => decide (startDay ≤ eventDate e))))
      = (fun k : Nat × Option Nat × Nat => (k.1, k.2.1, some k.2.2)) := rfl
  rw [this]
  exact (List.nodup_dedup _).map hinj

theorem find?_self_of_nodup_keys (l : List Summary)
    (hn : (l.map summaryKey).Nodup) (r : Summary) (hr : r ∈ l) :
    l.find? (fun c => decide (summaryKey c = summaryKey r)) = some r := by
  induction l with
  | nil => cases hr
  | cons a l ih =>
    rw [List.map_cons, List.nodup_cons] at hn
    rcases List.mem_cons.mp hr with rfl | hmem
    · simp [List.find?_cons]
    · have hne : ¬ (summaryKey a = summaryKey r) := by
        intro hkey
        exact hn.1 (hkey ▸ List.mem_map.mpr ⟨r, hmem, rfl⟩)
      rw [List.find?_cons]
      simp only [decide_eq_false hne]
      exact ih hn.2 hmem

theorem upsertRow_idem (computed : List Summary) (startDay : Nat) (s : Summary) :
    upsertRow computed startDay (upsertRow computed startDay s)
      = upsertRow computed startDay s := by
  by_cases hd : startDay ≤ s.date
  · cases hfind : computed.find? (fun c => decide (summaryKey c = summaryKey s)) with
    | none =>
      have hs : upsertRow computed startDay s = s := by
        rw [upsertRow, if_pos hd, hfind]
      rw [hs]
      exact hs
    | some c =>
      have hs : upsertRow computed startDay s = overwriteFrom c s := by
        rw [upsertRow, if_pos hd, hfind]
      rw [hs, upsertRow, date_overwriteFrom]
      simp only [summaryKey_overwriteFrom]
      rw [if_pos hd, hfind]
      exact overwriteFrom_overwriteFrom c s
  · have hs : upsertRow computed startDay s = s := by
      rw [upsertRow, if_neg hd]
    rw [hs]
    exact hs

theorem upsertRow_mem_computed (computed : List Summary) (startDay : Nat) (r : Summary)
    (hn : (computed.map summaryKey).Nodup)
    (hd : startDay ≤ r.date) (hr : r ∈ computed) :
    upsertRow computed startDay r = r := by
  rw [upsertRow, if_pos hd, find?_self_of_nodup_keys computed hn r hr]
  exact overwriteFrom_self r

theorem runPrecalc_keys_nodup (table : List Summary) (startDay : Nat) (events : List Event)
    (h : (table.map summaryKey).Nodup) :
    ((runPrecalc table startDay events).map summaryKey).Nodup := by
  simp only [runPrecalc]
  rw [List.map_append, List.nodup_append]
  refine ⟨?_, ?_, ?_⟩
  · rw [List.map_map]
    have hcomp : (summaryKey ∘ upsertRow (precalcCompute startDay events) startDay)
        = summaryKey :=
      funext (summaryKey_upsertRow (precalcCompute startDay events) startDay)
    rw [hcomp]
    exact h
  · exact List.Nodup.sublist
      (List.Sublist.map summaryKey (List.filter_sublist _))
      (precalcCompute_keys_nodup startDay events)
  · intro k hk1 hk2
    rw [List.map_map] at hk1
    obtain ⟨s, hs, rfl⟩ := List.mem_map.mp hk1
    obtain ⟨c, hcmem, hkey⟩ := List.mem_map.mp hk2
    have hcP := List.mem_filter.mp hcmem
    have hcomp2 : (summaryKey ∘ upsertRow (precalcCompute startDay events) startDay) s
        = summaryKey s := summaryKey_upsertRow _ _ s
    have hkeq : summaryKey s = summaryKey c := (hkey.trans hcomp2).symm
    have hdate : startDay ≤ s.date := by
      have h1 : s.date = c.date := congrArg Prod.fst hkeq
      rw [h1]
      exact precalcCompute_date_ge startDay events c hcP.1
    have hany : table.any
        (fun s => decide (startDay ≤ s.date) && decide (summaryKey s = summaryKey c)) = true :=
      List.any_eq_true.mpr ⟨s, hs, by simp [hdate, hkeq]⟩
    have := hcP.2
    rw [hany] at this
    simp at this

/- ### C4 -/

/-- C4: running the pre-calculation upsert twice over the same range with
the same events leaves the summary table in exactly the state one run
produces — rows of the range are overwritten in place with identical
columns and no key gains a duplicate row (the table's unique-together
constraint is the `Nodup` hypothesis and is preserved). -/
theorem precalc_run_idempotent (table : List Summary) (startDay : Nat) (events : List Event)
    (h : (table.map summaryKey).Nodup) :
    runPrecalc (runPrecalc table startDay events) startDay events
      = runPrecalc table startDay events
    ∧ ((runPrecalc table startDay events).map summaryKey).Nodup := by
  refine ⟨?_, runPrecalc_keys_nodup table startDay events h⟩
  have hmem_T1 : ∀ c ∈ precalcCompute startDay events,
      (runPrecalc table startDay events).any
        (fun s => decide (startDay ≤ s.date) && decide (summaryKey s = summaryKey c)) = true := by
    intro c hc
    by_cases hex : table.any
        (fun s => decide (startDay ≤ s.date) && decide (summaryKey s = summaryKey c)) = true
    · obtain ⟨s, hs, hq⟩ := List.any_eq_true.mp hex
      rw [Bool.and_eq_true, decide_eq_true_eq, decide_eq_true_eq] at hq
      apply List.any_eq_true.mpr
      refine ⟨upsertRow (precalcCompute startDay events) startDay s, ?_, ?_⟩
      · simp only [runPrecalc]
        exact List.mem_append_left _ (List.mem_map.mpr ⟨s, hs, rfl⟩)
      · simp [date_upsertRow, summaryKey_upsertRow, hq.1, hq.2]
    · have hfalse : table.any
          (fun s => decide (startDay ≤ s.date) && decide (summaryKey s = summaryKey c)) = false := by
        cases htest : table.any
            (fun s => decide (startDay ≤ s.date) && decide (summaryKey s = summaryKey c)) with
        | true => exact absurd htest hex
        | false => rfl
      apply List.any_eq_true.mpr
      refine ⟨c, ?_, ?_⟩
      · simp only [runPrecalc]
        refine List.mem_append_right _ (List.mem_filter.mpr ⟨hc, ?_⟩)
        rw [hfalse]
        rfl
      · simp [precalcCompute_date_ge startDay events c hc]
  have hcreate : (precalcCompute startDay events).filter (fun c =>
      ! (runPrecalc table startDay events).any
        (fun s => decide (startDay ≤ s.date) && decide (summaryKey s = summaryKey c))) = [] := by
    rw [List.filter_eq_nil_iff]
    intro c hc
    rw [hmem_T1 c hc]
    simp
  have hmap : (runPrecalc table startDay events).map
      (upsertRow (precalcCompute startDay events) startDay) = runPrecalc table startDay events := by
    have hid : ∀ r ∈ runPrecalc table startDay events,
        upsertRow (precalcCompute startDay events) startDay r = r := by
      intro r hr
      simp only [runPrecalc] at hr
      rcases List.mem_append.mp hr with h1 | h2
      · obtain ⟨s, hs, rfl⟩ := List.mem_map.mp h1
        exact upsertRow_idem (precalcCompute startDay events) startDay s
      · have hcmem := (List.mem_filter.mp h2).1
        exact upsertRow_mem_computed (precalcCompute startDay events) startDay r
          (precalcCompute_keys_nodup startDay events)
          (precalcCompute_date_ge startDay events r hcmem) hcmem
    exact (List.map_congr_left hid).trans (List.map_id _)
  set T1 := runPrecalc table startDay events with hT1
  simp only [runPrecalc]
  rw [hmap, hcreate, List.append_nil]

/-- Witness for C4 on a concrete table and event log: the key-uniqueness
hypothesis holds and a second run reproduces the first run's table. -/
theorem precalc_idempotent_witness :
    (([{ date := 2, countryId := some 1, authorId := some 1, total_views := 9
       , unique_blogs := 9, blog_ids := [9] }] : List Summary).map summaryKey).Nodup
    ∧ runPrecalc (runPrecalc
        [{ date := 2, countryId := some 1, authorId := some 1, total_views := 9
         , unique_blogs := 9, blog_ids := [9] }] 1
        [{ id := 1, blogId := 4, authorId := 1, countryId := some 1
         , timestamp := { day := 2, sec := 0 } },
         { id := 2, blogId := 5, authorId := 2, countryId := none
         , timestamp := { day := 3, sec := 1 } }]) 1
        [{ id := 1, blogId := 4, authorId := 1, countryId := some 1
         , timestamp := { day := 2, sec := 0 } },
         { id := 2, blogId := 5, authorId := 2, countryId := none
         , timestamp := { day := 3, sec := 1 } }]
      = runPrecalc
        [{ date := 2, countryId := some 1, authorId := some 1, total_views := 9
         , unique_blogs := 9, blog_ids := [9] }] 1
        [{ id := 1, blogId := 4, authorId := 1, countryId := some 1
         , timestamp := { day := 2, sec := 0 } },
         { id := 2, blogId := 5, authorId := 2, countryId := none
         , timestamp := { day := 3, sec := 1 } }] :=
  ⟨by decide,
   (precalc_run_idempotent
     [{ date := 2, countryId := some 1, authorId := some 1, total_views := 9
      , unique_blogs := 9, blog_ids := [9] }] 1
     [{ id := 1, blogId := 4, authorId := 1, countryId := some 1
      , timestamp := { day := 2, sec := 0 } },
      { id := 2, blogId := 5, authorId := 2, countryId := none
      , timestamp := { day := 3, sec := 1 } }] (by decide)).1⟩

/- ### Helper lemmas for the live/fast agreement (C1) -/

theorem zOf_cons (a : GroupEntry) (l : List GroupEntry) (g : Option String) :
    zOf (a :: l) g = (if a.x = g then a.z else 0) + zOf l g := by
  rw [zOf, List.filter_cons]
  by_cases h : a.x = g
  · simp [h, zOf]
  · simp [h, zOf]

theorem zOf_perm (l l' : List GroupEntry) (g : Option String) (h : List.Perm l l') :
    zOf l g = zOf l' g := by
  rw [zOf, zOf]
  exact ((h.filter _).map _).sum_eq

theorem zOf_map_preserve (hfun : GroupEntry → GroupEntry)
    (hx : ∀ a, (hfun a).x = a.x) (hz : ∀ a, (hfun a).z = a.z)
    (l : List GroupEntry) (g : Option String) :
    zOf (l.map hfun) g = zOf l g := by
  induction l with
  | nil => rfl
  | cons a l ih =>
    rw [List.map_cons, zOf_cons, zOf_cons, hx, hz, ih]

theorem zOf_keysMap (keys : List (Option String)) (F : Option String → GroupEntry)
    (hx : ∀ k, (F k).x = k) (hn : keys.Nodup) (g : Option String) :
    zOf (keys.map F) g = if g ∈ keys then (F g).z else 0 := by
  induction keys with
  | nil => simp [zOf]
  | cons k ks ih =>
    rw [List.map_cons, zOf_cons, hx]
    rw [List.nodup_cons] at hn
    by_cases hkg : k = g
    · subst hkg
      rw [if_pos rfl, if_pos (List.mem_cons_self _ _)]
      rw [ih hn.2, if_neg hn.1, Nat.add_zero]
    · rw [if_neg hkg, ih hn.2, Nat.zero_add]
      by_cases hg : g ∈ ks
      · rw [if_pos hg, if_pos (List.mem_cons_of_mem _ hg)]
      · rw [if_neg hg, if_neg ?_]
        rw [List.mem_cons]
        rintro (rfl | hc)
        · exact hkg rfl
        · exact hg hc

theorem countP_split {α : Type} (p q : α → Bool) (l : List α) :
    l.countP p = l.countP (fun a => p a && q a) + l.countP (fun a => p a && !q a) := by
  induction l with
  | nil => rfl
  | cons a l ih =>
    rw [List.countP_cons, List.countP_cons, List.countP_cons, ih]
    cases hpa : p a <;> cases hqa : q a <;> simp [hpa, hqa] <;> omega

theorem countP_fiberwise {α κ : Type} [DecidableEq κ] (fA : α → κ) (Q : κ → Bool) :
    ∀ (keys : List κ) (l : List α), keys.Nodup → (∀ a ∈ l, fA a ∈ keys) →
      l.countP (fun a => Q (fA a))
        = (keys.map (fun k =>
            if Q k then l.countP (fun a => decide (fA a = k)) else 0)).sum := by
  intro keys
  induction keys with
  | nil =>
    intro l _ hA
    rw [List.map_nil, List.sum_nil, List.countP_eq_zero]
    intro a ha
    exact absurd (hA a ha) (List.not_mem_nil _)
  | cons k ks ih =>
    intro l hN hA
    rw [List.nodup_cons] at hN
    rw [List.map_cons, List.sum_cons]
    rw [countP_split (fun a => Q (fA a)) (fun a => decide (fA a = k)) l]
    congr 1
    · cases hQ : Q k with
      | true =>
        rw [if_pos rfl]
        apply List.countP_congr
        intro a _
        by_cases hak : fA a = k
        · simp [hak, hQ]
        · simp [hak]
      | false =>
        rw [if_neg (by simp [hQ])]
        rw [List.countP_eq_zero]
        intro a _
        by_cases hak : fA a = k
        · simp [hak, hQ]
        · simp [hak]
    · have hA' : ∀ a ∈ l.filter (fun a => !decide (fA a = k)), fA a ∈ ks := by
        intro a ha
        obtain ⟨hal, hane⟩ := List.mem_filter.mp ha
        rcases List.mem_cons.mp (hA a hal) with h1 | h2
        · exfalso
          simp [h1] at hane
        · exact h2
      have ihl := ih (l.filter (fun a => !decide (fA a = k))) hN.2 hA'
      rw [List.countP_filter] at ihl
      rw [ihl]
      apply congrArg List.sum
      apply List.map_congr_left
      intro k' hk'
      by_cases hQ' : Q k' = true
      · rw [if_pos hQ', if_pos hQ']
        rw [List.countP_filter]
        apply List.countP_congr
        intro a _
        by_cases hak : fA a = k'
        · have hkk : ¬ (k' = k) := fun hkeq => hN.1 (hkeq ▸ hk')
          simp [hak, hkk]
        · simp [hak]
      · rw [if_neg hQ', if_neg hQ']

theorem sum_map_filter_map {α β : Type} (F : α → β) (p : β → Bool) (h : β → Nat)
    (l : List α) :
    (((l.map F).filter p).map h).sum
      = (l.map (fun a => if p (F a) then h (F a) else 0)).sum := by
  induction l with
  | nil => rfl
  | cons a l ih =>
    rw [List.map_cons, List.filter_cons, List.map_cons, List.sum_cons]
    by_cases hpa : p (F a) = true
    · rw [if_pos hpa, List.map_cons, List.sum_cons, ih, if_pos hpa]
    · rw [if_neg hpa, ih, if_neg hpa, Nat.zero_add]

theorem decide_lt_or_eq (a b : Nat) :
    (decide (a < b) || decide (a = b)) = decide (a ≤ b) := by
  by_cases h : a ≤ b
  · rcases Nat.lt_or_eq_of_le h with h1 | h1
    · simp [h1, h]
    · simp [h1, h]
  · have h1 : ¬ a < b := fun hl => h (Nat.le_of_lt hl)
    have h2 : ¬ a = b := fun he => h (Nat.le_of_eq he)
    simp [h1, h2, h]

theorem startQ_eq (f : Filters) (ts : DateTime) (hs : startAligned f = true) :
    (match f.start_date with | some sd => dtLe sd ts | none => true)
      = (match f.start_date with | some sd => decide (sd.day ≤ ts.day) | none => true) := by
  cases hsd : f.start_date with
  | none => rfl
  | some sd =>
    show dtLe sd ts = decide (sd.day ≤ ts.day)
    simp only [startAligned, hsd] at hs
    have h0 : sd.sec = 0 := of_decide_eq_true hs
    simp only [dtLe, h0]
    have hz : decide (0 ≤ ts.sec) = true := by simp
    rw [hz, Bool.and_true]
    exact decide_lt_or_eq sd.day ts.day

theorem endQ_eq (f : Filters) (ts : DateTime)
    (hsec : ts.sec < 86400) (hen : endAligned f = true) :
    (match f.end_date with | some ed => dtLe ts ed | none => true)
      = (match f.end_date with | some ed => decide (ts.day ≤ ed.day) | none => true) := by
  cases hed : f.end_date with
  | none => rfl
  | some ed =>
    show dtLe ts ed = decide (ts.day ≤ ed.day)
    simp only [endAligned, hed] at hen
    have h9 : ed.sec = 86399 := of_decide_eq_true hen
    simp only [dtLe, h9]
    have hz : decide (ts.sec ≤ 86399) = true := decide_eq_true (by omega)
    rw [hz, Bool.and_true]
    exact decide_lt_or_eq ts.day ed.day

theorem timeQts_eq_timeQdate (f : Filters) (ts : DateTime)
    (hsec : ts.sec < 86400) (hs : startAligned f = true) (hen : endAligned f = true) :
    timeQts f ts = timeQdate f ts.day := by
  rw [timeQts, timeQdate]
  cases hy : truthyNat f.year with
  | some y => rfl
  | none =>
    show rangeQts f ts = rangeQdate f ts.day
    rw [rangeQts, rangeQdate, startQ_eq f ts hs, endQ_eq f ts hsec hen]

theorem authorQsum_some (db : DB) (f : Filters) (a : Nat) :
    authorQsum db f (some a) = authorQev db f a := by
  cases h : truthyStr f.author_username <;> simp [authorQsum, authorQev, h]

theorem blogQ_none (f : Filters) (b : Nat) (hb : f.blog_id = none) :
    blogQ f b = true := by
  simp [blogQ, truthyNat, hb]

theorem summaryGroupKey_mkSummary (db : DB) (ot : ObjectType) (filtered : List Event)
    (e : Event) :
    summaryGroupKey db ot (mkSummary filtered (eventKey e)) = liveGroupKey db ot e := by
  cases ot <;> rfl

theorem livePred_eq_summaryPred (db : DB) (ot : ObjectType) (f : Filters)
    (g : Option String) (filtered : List Event) (e : Event)
    (hsec : e.timestamp.sec < 86400) (hs : startAligned f = true)
    (hen : endAligned f = true) (hb : f.blog_id = none) (hg : g.isSome = true) :
    (buildBlogviewFilters db f e && decide (liveGroupKey db ot e = g))
      = (decide (summaryGroupKey db ot (mkSummary filtered (eventKey e)) = g)
          && (buildSummaryFilters db f (mkSummary filtered (eventKey e))
              && (summaryGroupKey db ot (mkSummary filtered (eventKey e))).isSome)) := by
  rw [summaryGroupKey_mkSummary]
  have hsf : buildSummaryFilters db f (mkSummary filtered (eventKey e))
      = (timeQdate f e.timestamp.day && countryQ db f e.countryId
          && authorQsum db f (some e.authorId)) := rfl
  rw [hsf, authorQsum_some, buildBlogviewFilters,
    timeQts_eq_timeQdate f e.timestamp hsec hs hen, blogQ_none f e.blogId hb,
    Bool.and_true]
  cases hKg : decide (liveGroupKey db ot e = g) with
  | false => simp
  | true =>
    have hK : liveGroupKey db ot e = g := of_decide_eq_true hKg
    rw [hK, hg]
    simp [Bool.and_comm]

theorem zOf_applyY (cfg : HllCfg) (db : DB) (ot : ObjectType) (f : Filters)
    (data : List GroupEntry) (g : Option String) :
    zOf (applyYCorrection cfg db ot f data) g = zOf data g := by
  rw [applyYCorrection]
  split
  · cases cfg.redis with
    | some pf =>
      simp only
      split
      · exact zOf_map_preserve
          (fun e => { x := e.x, y := approxY pf (groupHllKeys db ot f e.x), z := e.z })
          (fun a => rfl) (fun a => rfl) data g
      · rw [zOf_map_preserve
          (fun e => if e.y = 0 then { x := e.x, y := exactUnionSize db ot f e.x, z := e.z } else e)
          (fun a => (by split <;> rfl :
            (if a.y = 0 then ({ x := a.x, y := exactUnionSize db ot f a.x, z := a.z } : GroupEntry)
             else a).x = a.x))
          (fun a => (by split <;> rfl :
            (if a.y = 0 then ({ x := a.x, y := exactUnionSize db ot f a.x, z := a.z } : GroupEntry)
             else a).z = a.z))]
        exact zOf_map_preserve
          (fun e => { x := e.x, y := approxY pf (groupHllKeys db ot f e.x), z := e.z })
          (fun a => rfl) (fun a => rfl) data g
    | none =>
      exact zOf_map_preserve
        (fun e => { x := e.x, y := exactUnionSize db ot f e.x, z := e.z })
        (fun a => rfl) (fun a => rfl) data g
  · exact zOf_map_preserve
      (fun e => { x := e.x, y := exactUnionSize db ot f e.x, z := e.z })
      (fun a => rfl) (fun a => rfl) data g

theorem zOf_ite_applyY (cfg : HllCfg) (db : DB) (ot : ObjectType) (f : Filters)
    (data : List GroupEntry) (g : Option String) :
    zOf (if data.isEmpty then data else applyYCorrection cfg db ot f data) g
      = zOf data g := by
  split
  · rfl
  · exact zOf_applyY cfg db ot f data g

theorem zOf_live (db : DB) (ot : ObjectType) (f : Filters) (g : Option String) :
    zOf (getGroupedAnalytics db ot f) g
      = (db.events.filter (fun e =>
          buildBlogviewFilters db f e && decide (liveGroupKey db ot e = g))).length := by
  simp only [getGroupedAnalytics]
  rw [zOf_perm _ _ g (List.perm_insertionSort zDesc _)]
  rw [zOf_keysMap _ _ (fun k => rfl) (List.nodup_dedup _) g]
  by_cases hmem : g ∈ ((db.events.filter (fun e => buildBlogviewFilters db f e)).map
      (liveGroupKey db ot)).dedup
  · rw [if_pos hmem]
    show ((db.events.filter (fun e => buildBlogviewFilters db f e)).filter
        (fun e => decide (liveGroupKey db ot e = g))).length = _
    rw [List.filter_filter]
    congr 1
    apply List.filter_congr
    intro a _
    exact Bool.and_comm _ _
  · rw [if_neg hmem]
    have hnil : db.events.filter (fun e =>
        buildBlogviewFilters db f e && decide (liveGroupKey db ot e = g)) = [] := by
      rw [List.filter_eq_nil_iff]
      intro e he hcontra
      rw [Bool.and_eq_true, decide_eq_true_eq] at hcontra
      apply hmem
      rw [List.mem_dedup]
      exact List.mem_map.mpr ⟨e, List.mem_filter.mpr ⟨he, hcontra.1⟩, hcontra.2⟩
    rw [hnil]
    rfl

theorem zOf_fast (cfg : HllCfg) (db : DB) (ot : ObjectType) (f : Filters)
    (g : Option String) :
    zOf (getGroupedAnalyticsFast cfg db ot f) g
      = (((summaryRows db ot f).filter (fun s => decide (summaryGroupKey db ot s = g))).map
          (fun s => s.total_views)).sum := by
  simp only [getGroupedAnalyticsFast]
  split
  · rename_i hemp
    rw [List.isEmpty_iff] at hemp
    have hrows : summaryRows db ot f = [] := by
      simp [summaryRows, hemp]
    rw [hrows]
    rfl
  · rw [zOf_ite_applyY]
    rw [zOf_perm _ _ g (List.perm_insertionSort zDesc _)]
    rw [zOf_keysMap _ _ (fun k => rfl) (List.nodup_dedup _) g]
    by_cases hmem : g ∈ ((summaryRows db ot f).map (summaryGroupKey db ot)).dedup
    · rw [if_pos hmem]
    · rw [if_neg hmem]
      have hnil : (summaryRows db ot f).filter
          (fun s => decide (summaryGroupKey db ot s = g)) = [] := by
        rw [List.filter_eq_nil_iff]
        intro s hs hcontra
        rw [decide_eq_true_eq] at hcontra
        apply hmem
        rw [List.mem_dedup]
        exact List.mem_map.mpr ⟨s, hs, hcontra⟩
      rw [hnil]
      rfl

theorem countP_congr_bool {α : Type} (p q : α → Bool) (l : List α)
    (h : ∀ x ∈ l, p x = q x) : l.countP p = l.countP q :=
  List.countP_congr (fun x hx => by rw [h x hx])

/- ### C1 -/

/-- C1: whenever the summary table is exactly the pre-calculation of the
event log over a range covering every event, the filter's bounds lie on
day boundaries, no `blog_id` filter is given (the fast builder has no
such clause) and the group is non-null (the fast path drops null-dimension
rows), the fast grouped query and the live grouped query report the same
`z` (total event count) for the group — under any HLL configuration,
since the approximate path never touches `z`. -/
theorem grouped_fast_agrees_with_live_on_z (cfg : HllCfg) (db : DB) (ot : ObjectType)
    (f : Filters) (startDay : Nat) (g : Option String)
    (hsum : db.summaries = precalcCompute startDay db.events)
    (hcov : covers startDay db = true)
    (hwf : eventsWf db = true)
    (hs : startAligned f = true) (hen : endAligned f = true)
    (hb : f.blog_id = none) (hg : g.isSome = true) :
    zOf (getGroupedAnalyticsFast cfg db ot f) g = zOf (getGroupedAnalytics db ot f) g := by
  have hsecs : ∀ e ∈ db.events, e.timestamp.sec < 86400 := by
    intro e he
    exact of_decide_eq_true (List.all_eq_true.mp hwf e he)
  have hcovs : ∀ e ∈ db.events, startDay ≤ eventDate e := by
    intro e he
    exact of_decide_eq_true (List.all_eq_true.mp hcov e he)
  have hfe : db.events.filter (fun e => decide (startDay ≤ eventDate e)) = db.events :=
    List.filter_eq_self.mpr (fun a ha => decide_eq_true (hcovs a ha))
  rw [zOf_fast, zOf_live]
  simp only [summaryRows]
  rw [hsum, List.filter_filter]
  simp only [precalcCompute]
  rw [hfe]
  rw [sum_map_filter_map]
  rw [← List.countP_eq_length_filter]
  rw [countP_congr_bool
    (fun e => buildBlogviewFilters db f e && decide (liveGroupKey db ot e = g))
    (fun e => decide (summaryGroupKey db ot (mkSummary db.events (eventKey e)) = g)
      && (buildSummaryFilters db f (mkSummary db.events (eventKey e))
          && (summaryGroupKey db ot (mkSummary db.events (eventKey e))).isSome))
    db.events
    (fun e he => livePred_eq_summaryPred db ot f g db.events e (hsecs e he) hs hen hb hg)]
  rw [countP_fiberwise eventKey
    (fun k => decide (summaryGroupKey db ot (mkSummary db.events k) = g)
      && (buildSummaryFilters db f (mkSummary db.events k)
          && (summaryGroupKey db ot (mkSummary db.events k)).isSome))
    ((db.events.map eventKey).dedup) db.events (List.nodup_dedup _)
    (fun a ha => List.mem_dedup.mpr (List.mem_map.mpr ⟨a, ha, rfl⟩))]
  apply congrArg List.sum
  apply List.map_congr_left
  intro k hk
  split
  · rw [List.countP_eq_length_filter]
    rfl
  · rfl

/-- Witness for C1 on a concrete log: three events over two days, summaries
freshly pre-calculated for the whole range, a day-aligned date filter, no
blog filter, group `US`. -/
theorem grouped_fast_agrees_witness :
    eventsWf
      { events := [
          { id := 1, blogId := 1, authorId := 1, countryId := some 1
          , timestamp := { day := 5, sec := 10 } },
          { id := 2, blogId := 2, authorId := 1, countryId := some 1
          , timestamp := { day := 6, sec := 86399 } },
          { id := 3, blogId := 1, authorId := 2, countryId := none
          , timestamp := { day := 5, sec := 3 } }]
      , summaries := precalcCompute 0 [
          { id := 1, blogId := 1, authorId := 1, countryId := some 1
          , timestamp := { day := 5, sec := 10 } },
          { id := 2, blogId := 2, authorId := 1, countryId := some 1
          , timestamp := { day := 6, sec := 86399 } },
          { id := 3, blogId := 1, authorId := 2, countryId := none
          , timestamp := { day := 5, sec := 3 } }]
      , blogs := [], countryCode := fun c => if c = 1 then "US" else "ET"
      , username := fun a => if a = 1 then "alice" else "bob"
      , blogTitle := fun _ => "t" } = true
    ∧ zOf (getGroupedAnalyticsFast exactCfg
        { events := [
            { id := 1, blogId := 1, authorId := 1, countryId := some 1
            , timestamp := { day := 5, sec := 10 } },
            { id := 2, blogId := 2, authorId := 1, countryId := some 1
            , timestamp := { day := 6, sec := 86399 } },
            { id := 3, blogId := 1, authorId := 2, countryId := none
            , timestamp := { day := 5, sec := 3 } }]
        , summaries := precalcCompute 0 [
            { id := 1, blogId := 1, authorId := 1, countryId := some 1
            , timestamp := { day := 5, sec := 10 } },
            { id := 2, blogId := 2, authorId := 1, countryId := some 1
            , timestamp := { day := 6, sec := 86399 } },
            { id := 3, blogId := 1, authorId := 2, countryId := none
            , timestamp := { day := 5, sec := 3 } }]
        , blogs := [], countryCode := fun c => if c = 1 then "US" else "ET"
        , username := fun a => if a = 1 then "alice" else "bob"
        , blogTitle := fun _ => "t" }
        ObjectType.country
        { year := none, start_date := some { day := 5, sec := 0 }
        , end_date := some { day := 6, sec := 86399 }, country_codes := none
        , exclude_country_codes := none, author_username := none, blog_id := none
        , compare := none }) (some "US")
      = zOf (getGroupedAnalytics
        { events := [
            { id := 1, blogId := 1, authorId := 1, countryId := some 1
            , timestamp := { day := 5, sec := 10 } },
            { id := 2, blogId := 2, authorId := 1, countryId := some 1
            , timestamp := { day := 6, sec := 86399 } },
            { id := 3, blogId := 1, authorId := 2, countryId := none
            , timestamp := { day := 5, sec := 3 } }]
        , summaries := precalcCompute 0 [
            { id := 1, blogId := 1, authorId := 1, countryId := some 1
            , timestamp := { day := 5, sec := 10 } },
            { id := 2, blogId := 2, authorId := 1, countryId := some 1
            , timestamp := { day := 6, sec := 86399 } },
            { id := 3, blogId := 1, authorId := 2, countryId := none
            , timestamp := { day := 5, sec := 3 } }]
        , blogs := [], countryCode := fun c => if c = 1 then "US" else "ET"
        , username := fun a => if a = 1 then "alice" else "bob"
        , blogTitle := fun _ => "t" }
        ObjectType.country
        { year := none, start_date := some { day := 5, sec := 0 }
        , end_date := some { day := 6, sec := 86399 }, country_codes := none
        , exclude_country_codes := none, author_username := none, blog_id := none
        , compare := none }) (some "US") :=
  ⟨by decide,
   grouped_fast_agrees_with_live_on_z exactCfg
     { events := [
         { id := 1, blogId := 1, authorId := 1, countryId := some 1
         , timestamp := { day := 5, sec := 10 } },
         { id := 2, blogId := 2, authorId := 1, countryId := some 1
         , timestamp := { day := 6, sec := 86399 } },
         { id := 3, blogId := 1, authorId := 2, countryId := none
         , timestamp := { day := 5, sec := 3 } }]
     , summaries := precalcCompute 0 [
         { id := 1, blogId := 1, authorId := 1, countryId := some 1
         , timestamp := { day := 5, sec := 10 } },
         { id := 2, blogId := 2, authorId := 1, countryId := some 1
         , timestamp := { day := 6, sec := 86399 } },
         { id := 3, blogId := 1, authorId := 2, countryId := none
         , timestamp := { day := 5, sec := 3 } }]
     , blogs := [], countryCode := fun c => if c = 1 then "US" else "ET"
     , username := fun a => if a = 1 then "alice" else "bob"
     , blogTitle := fun _ => "t" }
     ObjectType.country
     { year := none, start_date := some { day := 5, sec := 0 }
     , end_date := some { day := 6, sec := 86399 }, country_codes := none
     , exclude_country_codes := none, author_username := none, blog_id := none
     , compare := none }
     0 (some "US") rfl (by decide) (by decide) (by decide) (by decide) rfl rfl⟩
